import Mathlib

/-!
Verification of the Musify preference-learning and ranking engine
(`MusicRecommendationEngine` in `app.py`).

The engine is embedded shallowly:

* Python floats are modelled as exact rationals (`ℚ`); every constant the
  engine uses (0.5, 0.1, 0.3, …) is an exact decimal, so the arithmetic of
  the claims is representable exactly.
* Python dicts (insertion ordered, string keyed) are modelled as association
  lists (`List (String × α)`): lookup scans from the front, assignment
  replaces in place or appends at the end, mirroring dict semantics.
* `datetime.now().hour` and `datetime.now().isoformat()` are passed in as
  explicit parameters (`current_hour`, `now_iso`).
* `math.log` is passed in as an explicit function parameter `mlog : ℚ → ℚ`;
  no claim depends on its values.
* `random.shuffle` and `random.randint(2, 3)` in the shuffle planner are
  passed in as explicit parameters (two reordering functions and a stream of
  draw sizes).
* Mutation of `self.data` is modelled by state passing: mutating operations
  return the new state along with their result.
-/

/-! ## Association lists modelling Python dicts -/

/-- Dict lookup: first binding of `key`, scanning from the front. -/
def amGet {α : Type} : List (String × α) → String → Option α
  | [], _ => none
  | (k, v) :: rest, key => if k = key then some v else amGet rest key

/-- Dict assignment `m[key] = val`: replace in place if present, else append. -/
def amSet {α : Type} : List (String × α) → String → α → List (String × α)
  | [], key, val => [(key, val)]
  | (k, v) :: rest, key, val =>
    if k = key then (k, val) :: rest else (k, v) :: amSet rest key val

/-! ## Python string primitives used by `_extract_features` -/

/-- Python whitespace as stripped by `str.strip()` (ASCII part). -/
def pySpace (c : Char) : Bool :=
  c == ' ' || c == '\t' || c == '\n' || c == '\x0d' || c == '\x0b' || c == '\x0c'

/-- Python `str.strip()` on a character list. -/
def pyStrip (s : List Char) : List Char :=
  ((s.dropWhile pySpace).reverse.dropWhile pySpace).reverse

/-- Python `str.lower()` (ASCII case mapping, which is all the engine needs). -/
def pyLower (s : List Char) : List Char := s.map Char.toLower

/-- Python `pat in s` substring test. -/
def strContains (pat : List Char) : List Char → Bool
  | [] => pat.isEmpty
  | c :: rest => pat.isPrefixOf (c :: rest) || strContains pat rest

/-- Python `s.split(pat, 1)`: the segments before and after the first
occurrence of `pat`, or `none` when `pat` does not occur. -/
def splitFirst (pat : List Char) : List Char → Option (List Char × List Char)
  | [] => if pat.isEmpty then some ([], []) else none
  | c :: rest =>
    if pat.isPrefixOf (c :: rest) then some ([], (c :: rest).drop pat.length)
    else
      match splitFirst pat rest with
      | some (pre, post) => some (c :: pre, post)
      | none => none

/-- Index of the last occurrence of `c` in `s`, modelling Python `s.rfind(c)`
(with `none` for Python's `-1`). -/
def rfindIdx (c : Char) (s : List Char) : Option ℕ :=
  (List.range s.length).foldl
    (fun acc i => if s.getD i ' ' = c then some i else acc) none

/-- Root part of Python `os.path.splitext(p)` (posix rules): cut at the last
dot provided it lies after the last path separator and some earlier character
of the basename is not a dot (so purely leading dots are kept). -/
def splitextRoot (s : List Char) : List Char :=
  let sepIdx : ℤ := match rfindIdx '/' s with | some i => (i : ℤ) | none => -1
  match rfindIdx '.' s with
  | none => s
  | some dotIdx =>
    if (sepIdx < (dotIdx : ℤ)) ∧
        (List.range s.length).any (fun j =>
          decide (sepIdx < (j : ℤ)) && decide (j < dotIdx) && (s.getD j ' ' != '.'))
    then s.take dotIdx else s

/-- Separator class of `re.split(r"[\s\-_\.\(\)\[\],&]+", …)` (ASCII `\s`). -/
def sepChar (c : Char) : Bool :=
  pySpace c || c == '-' || c == '_' || c == '.' || c == '(' || c == ')' ||
    c == '[' || c == ']' || c == ',' || c == '&'

/-- Accumulator pass for `tokenize`. -/
def tokenizeAux (p : Char → Bool) : List Char → List Char → List (List Char)
  | [], acc => [acc.reverse]
  | c :: rest, acc =>
    if p c then acc.reverse :: tokenizeAux p rest []
    else tokenizeAux p rest (c :: acc)

/-- Splitting on separator characters, as `re.split` on the class above does;
runs of separators yield empty tokens which the length-≥-3 filter drops. -/
def tokenize (p : Char → Bool) (s : List Char) : List (List Char) :=
  tokenizeAux p s []

/-- Python `str.title()` (ASCII): uppercase every letter that follows a
non-letter, lowercase the other letters. -/
def pyTitleAux : Bool → List Char → List Char
  | _, [] => []
  | prevAlpha, c :: rest =>
    if c.isAlpha then
      (if prevAlpha then c.toLower else c.toUpper) :: pyTitleAux true rest
    else c :: pyTitleAux false rest

/-- Python `str.title()` on a `String`. -/
def pyTitle (s : String) : String := String.mk (pyTitleAux false s.toList)

/-- Python `str.lower()` on a `String`. -/
def strLower (s : String) : String := String.mk (pyLower s.toList)

/-! ## Feature extraction (`_extract_features`) -/

/-- Result of `_extract_features` (the `features` dict). -/
structure Features where
  keywords : List String
  artist : Option String
  potential_genre : List String
  mood_hints : List String
  language_hints : List String
deriving DecidableEq

/-- The fixed genre → substring-pattern table of `_extract_features`. -/
def genre_patterns : List (String × List String) :=
  [("electronic", ["remix", "edm", "house", "techno", "dubstep", "trance", "bass", "drop", "beat"]),
   ("hiphop", ["rap", "hip", "hop", "trap", "flow", "bars", "cypher", "freestyle"]),
   ("rock", ["rock", "metal", "guitar", "punk", "grunge", "alternative"]),
   ("pop", ["pop", "dance", "party", "club", "hit"]),
   ("classical", ["symphony", "orchestra", "classical", "piano", "violin", "opus"]),
   ("jazz", ["jazz", "blues", "swing", "soul", "funk"]),
   ("ambient", ["ambient", "chill", "relax", "calm", "peaceful", "meditation", "sleep"]),
   ("indian", ["bollywood", "hindi", "punjabi", "desi", "bhangra", "indian"]),
   ("lofi", ["lofi", "lo-fi", "study", "beats", "aesthetic"]),
   ("acoustic", ["acoustic", "unplugged", "live", "cover"])]

/-- The fixed mood → substring-pattern table of `_extract_features`. -/
def mood_patterns : List (String × List String) :=
  [("energetic", ["energy", "hype", "fire", "lit", "party", "dance", "fast", "power"]),
   ("sad", ["sad", "cry", "tears", "alone", "lonely", "heartbreak", "broken", "miss"]),
   ("happy", ["happy", "joy", "smile", "love", "sunshine", "good", "best"]),
   ("romantic", ["love", "romance", "heart", "kiss", "forever", "baby", "darling"]),
   ("motivational", ["motivation", "inspire", "dream", "rise", "success", "champion", "win"])]

/-- `MusicRecommendationEngine._extract_features`.  Strips the file extension,
detects an artist on the first `" - "` (keeping the right segment, lowered,
for further analysis) or else on the first `" by "` of the lowered string
(keeping the whole lowered string for further analysis — the source does not
reassign `name_lower` in that branch), tokenizes what remains into keywords of
length ≥ 3, and tags genres and moods whose patterns occur as substrings. -/
def _extract_features (song_name : String) : Features :=
  let name : List Char := splitextRoot song_name.toList
  let nameLower0 := pyLower name
  let step :=
    if strContains (" - ".toList) name then
      match splitFirst (" - ".toList) name with
      | some (pre, post) => (some (String.mk (pyStrip pre)), pyLower post)
      | none => (none, nameLower0)
    else if strContains (" by ".toList) nameLower0 then
      match splitFirst (" by ".toList) nameLower0 with
      | some (_, post) => (some (String.mk (pyStrip post)), nameLower0)
      | none => (none, nameLower0)
    else (none, nameLower0)
  let artist := step.1
  let name_lower := step.2
  let words := tokenize sepChar name_lower
  let keywords :=
    (words.filter (fun w => (pyStrip w).length ≥ 3)).map (fun w => String.mk (pyStrip w))
  let genres :=
    (genre_patterns.filter
      (fun gp => gp.2.any (fun pat => strContains pat.toList name_lower))).map (fun gp => gp.1)
  let moods :=
    (mood_patterns.filter
      (fun mp => mp.2.any (fun pat => strContains pat.toList name_lower))).map (fun mp => mp.1)
  { keywords := keywords, artist := artist, potential_genre := genres,
    mood_hints := moods, language_hints := [] }

example :
    _extract_features "DJ Nova - Night Drive" =
      { keywords := ["night", "drive"], artist := some "DJ Nova",
        potential_genre := [], mood_hints := [], language_hints := [] } := by
  decide

example :
    _extract_features "Sunrise by Alice" =
      { keywords := ["sunrise", "alice"], artist := some "alice",
        potential_genre := [], mood_hints := ["motivational"], language_hints := [] } := by
  decide

example :
    _extract_features "rock song" =
      { keywords := ["rock", "song"], artist := none,
        potential_genre := ["rock"], mood_hints := [], language_hints := [] } := by
  decide

/-! ## The preference model (`self.data`) -/

/-- One entry of `song_stats` (per-track statistics). -/
structure SongStats where
  play_count : ℕ
  skip_count : ℕ
  total_completion : ℚ
  features : Features
  first_played : String
  last_played : Option String
deriving DecidableEq

/-- The whole preference model.  `time_preferences` maps an hour of day to
that hour's keyword-count dict (the source keys the outer dict by `str(h)`
for `h in range(24)`; the string encoding of the hour is dropped here). -/
structure PrefData where
  song_stats : List (String × SongStats)
  keyword_scores : List (String × ℚ)
  artist_scores : List (String × ℚ)
  time_preferences : ℕ → List (String × ℕ)
  genre_hints : List (String × ℚ)
  total_plays : ℕ
  total_skips : ℕ
  learning_rate : ℚ
  last_updated : Option String

/-- The `default` structure of `_load_preferences`. -/
def defaultPrefData : PrefData :=
  { song_stats := [], keyword_scores := [], artist_scores := [],
    time_preferences := fun _ => [], genre_hints := [],
    total_plays := 0, total_skips := 0, learning_rate := 0.1,
    last_updated := none }

/-! ## Persistence (`_load_preferences`) -/

/-- A parsed persisted document: each top-level field of the model may be
present or missing.  A `none` at the outer `Option` models a missing file or
any read/parse failure (the `except` path of `_load_preferences`). -/
structure LoadedDoc where
  song_stats : Option (List (String × SongStats))
  keyword_scores : Option (List (String × ℚ))
  artist_scores : Option (List (String × ℚ))
  time_preferences : Option (ℕ → List (String × ℕ))
  genre_hints : Option (List (String × ℚ))
  total_plays : Option ℕ
  total_skips : Option ℕ
  learning_rate : Option ℚ
  last_updated : Option (Option String)

/-- `MusicRecommendationEngine._load_preferences`: merge the loaded document
with the default shape key by key (`for key in default: if key not in loaded:
loaded[key] = default[key]`), falling back to the default entirely when the
file is absent or reading/parsing raised. -/
def _load_preferences (parsed : Option LoadedDoc) : PrefData :=
  match parsed with
  | none => defaultPrefData
  | some doc =>
    { song_stats := doc.song_stats.getD defaultPrefData.song_stats,
      keyword_scores := doc.keyword_scores.getD defaultPrefData.keyword_scores,
      artist_scores := doc.artist_scores.getD defaultPrefData.artist_scores,
      time_preferences := doc.time_preferences.getD defaultPrefData.time_preferences,
      genre_hints := doc.genre_hints.getD defaultPrefData.genre_hints,
      total_plays := doc.total_plays.getD defaultPrefData.total_plays,
      total_skips := doc.total_skips.getD defaultPrefData.total_skips,
      learning_rate := doc.learning_rate.getD defaultPrefData.learning_rate,
      last_updated := doc.last_updated.getD defaultPrefData.last_updated }

/-! ## Learning engine (`record_play`) -/

/-- The dict returned by `record_play`. -/
structure RecordResult where
  success : Bool
  reward : ℚ
deriving DecidableEq

/-- The repeated weight-update step of `record_play`: seed at `0.5` when the
key is absent, add `lr * (reward - bias)`, clamp into `[0, 1]`. -/
def _clamp_update (lr reward bias : ℚ) (m : List (String × ℚ)) (key : String) :
    List (String × ℚ) :=
  let cur := (amGet m key).getD 0.5
  amSet m key (max 0 (min 1 (cur + lr * (reward - bias))))

/-- Completion ratio of a non-skip event, as computed in `record_play`. -/
def completionOf (completed : Bool) (duration_played total_duration : ℚ) : ℚ :=
  if total_duration > 0 then min 1 (duration_played / total_duration)
  else if completed then 1 else 0.5

/-- `MusicRecommendationEngine.record_play`.  The source mutates
`self.data` in place and then saves; here the new model is returned.  The
source first inserts a zeroed stats entry when the track is new and then
mutates that entry, which is the single `amSet` with `stats2` below.  The
final `last_updated` assignment models `_save_preferences`. -/
def record_play (d : PrefData) (current_hour : ℕ) (now_iso : String)
    (song_name : String) (completed : Bool)
    (duration_played total_duration : ℚ) (skipped : Bool) :
    RecordResult × PrefData :=
  let features := _extract_features song_name
  let stats0 := (amGet d.song_stats song_name).getD
    { play_count := 0, skip_count := 0, total_completion := 0,
      features := features, first_played := now_iso, last_played := none }
  let stats1 := { stats0 with play_count := stats0.play_count + 1,
                              last_played := some now_iso }
  let reward : ℚ :=
    if skipped then -0.3
    else completionOf completed duration_played total_duration * 0.5 +
      (if completed then 0.5 else 0)
  let stats2 :=
    if skipped then { stats1 with skip_count := stats1.skip_count + 1 }
    else { stats1 with total_completion :=
      stats1.total_completion + completionOf completed duration_played total_duration }
  let lr := d.learning_rate
  let keyword_scores1 :=
    features.keywords.foldl (fun m k => _clamp_update lr reward 0.5 m k) d.keyword_scores
  let artist_scores1 :=
    match features.artist with
    | some a =>
      if a = "" then d.artist_scores
      else _clamp_update lr reward 0.3 d.artist_scores (strLower a)
    | none => d.artist_scores
  let genre_hints1 :=
    features.potential_genre.foldl (fun m g => _clamp_update lr reward 0.5 m g) d.genre_hints
  let bucket :=
    (features.keywords.take 5).foldl
      (fun b k => amSet b k ((amGet b k).getD 0 + 1)) (d.time_preferences current_hour)
  ({ success := true, reward := reward },
   { song_stats := amSet d.song_stats song_name stats2,
     keyword_scores := keyword_scores1,
     artist_scores := artist_scores1,
     time_preferences := fun h => if h = current_hour then bucket else d.time_preferences h,
     genre_hints := genre_hints1,
     total_plays := d.total_plays + 1,
     total_skips := if skipped then d.total_skips + 1 else d.total_skips,
     learning_rate := d.learning_rate,
     last_updated := some now_iso })

/-! ## Scoring engine (`calculate_song_score`) -/

/-- The `score_components` dict: a `none` field is an absent key. -/
structure ScoreComponents where
  keywords : Option ℚ
  artist : Option ℚ
  genre : Option ℚ
  completion : Option ℚ
deriving DecidableEq

/-- The dict returned by `calculate_song_score`. -/
structure ScoreResult where
  score : ℚ
  components : ScoreComponents
  features : Features
deriving DecidableEq

/-- The genre-score accumulation loop of `calculate_song_score`: sum the
learned weights of the known genre tags, leaving unknown tags out. -/
def genre_fold (hints : List (String × ℚ)) (tags : List String) : ℚ :=
  tags.foldl
    (fun s g => match amGet hints g with | some v => s + v | none => s) 0

/-- Genre mass as the claim's amended wording describes it: each tag
contributes its learned weight, an unknown tag contributing `0`. -/
def genre_sum_spec (hints : List (String × ℚ)) (tags : List String) : ℚ :=
  (tags.map (fun g => (amGet hints g).getD 0)).sum

/-- `MusicRecommendationEngine.calculate_song_score`.  `mlog` stands for
`math.log`.  Read-only: the model is consumed, none is produced. -/
def calculate_song_score (mlog : ℚ → ℚ) (d : PrefData) (current_hour : ℕ)
    (song_name : String) : ScoreResult :=
  let features := _extract_features song_name
  let kw : ℚ × ℕ := features.keywords.foldl
    (fun p k => match amGet d.keyword_scores k with
      | some v => (p.1 + v, p.2 + 1)
      | none => p) (0, 0)
  let step1 : ℚ × Option ℚ :=
    if kw.2 > 0 then
      let ks := kw.1 / (kw.2 : ℚ)
      (0.5 + (ks - 0.5) * 0.3, some ks)
    else (0.5, none)
  let step2 : ℚ × Option ℚ :=
    match features.artist with
    | some a =>
      if a = "" then (step1.1, none)
      else
        match amGet d.artist_scores (strLower a) with
        | some v => (step1.1 + (v - 0.5) * 0.25, some v)
        | none => (step1.1, none)
    | none => (step1.1, none)
  let step3 : ℚ × Option ℚ :=
    if features.potential_genre ≠ [] then
      let gs := genre_fold d.genre_hints features.potential_genre /
        (features.potential_genre.length : ℚ)
      (step2.1 + (gs - 0.5) * 0.2, some gs)
    else (step2.1, none)
  let time_prefs := d.time_preferences current_hour
  let time_boost : ℚ := features.keywords.foldl
    (fun t k => match amGet time_prefs k with
      | some c => t + (c : ℚ)
      | none => t) 0
  let score4 := if time_boost > 0 then step3.1 + min 0.1 (time_boost / 100) else step3.1
  let step5 : ℚ × Option ℚ :=
    match amGet d.song_stats song_name with
    | none => (score4, none)
    | some stats =>
      let play_count := stats.play_count
      let s1 := if play_count > 0 then
          score4 + min 0.15 (mlog ((play_count : ℚ) + 1) * 0.05)
        else score4
      let s2 := s1 - ((stats.skip_count : ℚ) / ((max 1 play_count : ℕ) : ℚ)) * 0.2
      if play_count > 0 then
        (s2 + (stats.total_completion / (play_count : ℚ) - 0.5) * 0.15,
         some (stats.total_completion / (play_count : ℚ)))
      else (s2, none)
  { score := max 0 (min 1 step5.1),
    components := { keywords := step1.2, artist := step2.2, genre := step3.2,
                    completion := step5.2 },
    features := features }

/-- `calculate_song_score` with its genre block replaced by what claim C3
states: average only the genre weights that are known, and skip the factor
entirely when no tag has a known weight.  Everything else is as in the
source; this definition exists to be compared against the source function. -/
def calculate_song_score_claimC3 (mlog : ℚ → ℚ) (d : PrefData) (current_hour : ℕ)
    (song_name : String) : ScoreResult :=
  let features := _extract_features song_name
  let kw : ℚ × ℕ := features.keywords.foldl
    (fun p k => match amGet d.keyword_scores k with
      | some v => (p.1 + v, p.2 + 1)
      | none => p) (0, 0)
  let step1 : ℚ × Option ℚ :=
    if kw.2 > 0 then
      let ks := kw.1 / (kw.2 : ℚ)
      (0.5 + (ks - 0.5) * 0.3, some ks)
    else (0.5, none)
  let step2 : ℚ × Option ℚ :=
    match features.artist with
    | some a =>
      if a = "" then (step1.1, none)
      else
        match amGet d.artist_scores (strLower a) with
        | some v => (step1.1 + (v - 0.5) * 0.25, some v)
        | none => (step1.1, none)
    | none => (step1.1, none)
  let gk : ℚ × ℕ := features.potential_genre.foldl
    (fun p g => match amGet d.genre_hints g with
      | some v => (p.1 + v, p.2 + 1)
      | none => p) (0, 0)
  let step3 : ℚ × Option ℚ :=
    if gk.2 > 0 then
      let gs := gk.1 / (gk.2 : ℚ)
      (step2.1 + (gs - 0.5) * 0.2, some gs)
    else (step2.1, none)
  let time_prefs := d.time_preferences current_hour
  let time_boost : ℚ := features.keywords.foldl
    (fun t k => match amGet time_prefs k with
      | some c => t + (c : ℚ)
      | none => t) 0
  let score4 := if time_boost > 0 then step3.1 + min 0.1 (time_boost / 100) else step3.1
  let step5 : ℚ × Option ℚ :=
    match amGet d.song_stats song_name with
    | none => (score4, none)
    | some stats =>
      let play_count := stats.play_count
      let s1 := if play_count > 0 then
          score4 + min 0.15 (mlog ((play_count : ℚ) + 1) * 0.05)
        else score4
      let s2 := s1 - ((stats.skip_count : ℚ) / ((max 1 play_count : ℕ) : ℚ)) * 0.2
      if play_count > 0 then
        (s2 + (stats.total_completion / (play_count : ℚ) - 0.5) * 0.15,
         some (stats.total_completion / (play_count : ℚ)))
      else (s2, none)
  { score := max 0 (min 1 step5.1),
    components := { keywords := step1.2, artist := step2.2, genre := step3.2,
                    completion := step5.2 },
    features := features }

/-- `calculate_song_score` with the genre block written as the amended claim
C3 words it: the sum over all of the track's genre tags of the learned weight
(an unknown tag contributing `0`), divided by the total number of tags,
applied whenever the track carries at least one genre tag. -/
def calculate_song_score_amendedC3 (mlog : ℚ → ℚ) (d : PrefData) (current_hour : ℕ)
    (song_name : String) : ScoreResult :=
  let features := _extract_features song_name
  let kw : ℚ × ℕ := features.keywords.foldl
    (fun p k => match amGet d.keyword_scores k with
      | some v => (p.1 + v, p.2 + 1)
      | none => p) (0, 0)
  let step1 : ℚ × Option ℚ :=
    if kw.2 > 0 then
      let ks := kw.1 / (kw.2 : ℚ)
      (0.5 + (ks - 0.5) * 0.3, some ks)
    else (0.5, none)
  let step2 : ℚ × Option ℚ :=
    match features.artist with
    | some a =>
      if a = "" then (step1.1, none)
      else
        match amGet d.artist_scores (strLower a) with
        | some v => (step1.1 + (v - 0.5) * 0.25, some v)
        | none => (step1.1, none)
    | none => (step1.1, none)
  let step3 : ℚ × Option ℚ :=
    if features.potential_genre ≠ [] then
      let gs := genre_sum_spec d.genre_hints features.potential_genre /
        (features.potential_genre.length : ℚ)
      (step2.1 + (gs - 0.5) * 0.2, some gs)
    else (step2.1, none)
  let time_prefs := d.time_preferences current_hour
  let time_boost : ℚ := features.keywords.foldl
    (fun t k => match amGet time_prefs k with
      | some c => t + (c : ℚ)
      | none => t) 0
  let score4 := if time_boost > 0 then step3.1 + min 0.1 (time_boost / 100) else step3.1
  let step5 : ℚ × Option ℚ :=
    match amGet d.song_stats song_name with
    | none => (score4, none)
    | some stats =>
      let play_count := stats.play_count
      let s1 := if play_count > 0 then
          score4 + min 0.15 (mlog ((play_count : ℚ) + 1) * 0.05)
        else score4
      let s2 := s1 - ((stats.skip_count : ℚ) / ((max 1 play_count : ℕ) : ℚ)) * 0.2
      if play_count > 0 then
        (s2 + (stats.total_completion / (play_count : ℚ) - 0.5) * 0.15,
         some (stats.total_completion / (play_count : ℚ)))
      else (s2, none)
  { score := max 0 (min 1 step5.1),
    components := { keywords := step1.2, artist := step2.2, genre := step3.2,
                    completion := step5.2 },
    features := features }

/-- A call of `calculate_song_score` in the state-passing convention used for
the mutating operations: the method assigns nothing to `self.data`, so its
embedding hands the model back untouched. -/
def score_op (mlog : ℚ → ℚ) (d : PrefData) (current_hour : ℕ)
    (song_name : String) : ScoreResult × PrefData :=
  (calculate_song_score mlog d current_hour song_name, d)

/-! ## Shuffle planner (`get_smart_shuffle_order`) -/

/-- One element of `scored_songs` (a `{'name', 'score', 'data'}` dict). -/
structure ScoredSong where
  name : String
  score : ℚ
  data : ScoreResult
deriving DecidableEq

/-- A stable sort, descending in `key`, modelling Python's
`sorted(..., key=..., reverse=True)` / `list.sort(key=..., reverse=True)`:
an element is inserted behind every earlier element of equal key. -/
def insertDescBy {α : Type} (key : α → ℚ) (x : α) : List α → List α
  | [] => [x]
  | y :: ys => if key x < key y then y :: insertDescBy key x ys else x :: y :: ys

/-- Stable descending insertion sort by `key`. -/
def sortDescBy {α : Type} (key : α → ℚ) : List α → List α
  | [] => []
  | x :: xs => insertDescBy key x (sortDescBy key xs)

/-- The interleaving `while` loop of `get_smart_shuffle_order`: every round
takes `choices k` items (the draw of `random.randint(2, 3)`) from the front
of the preferred half, then one item from the front of the others half.  The
fuel argument bounds the rounds; since every draw of `randint(2, 3)` is
positive, each round consumes at least one item, so the fuel supplied by
`get_smart_shuffle_order` (the total number of items) never runs out. -/
def interleave {α : Type} (choices : ℕ → ℕ) :
    ℕ → ℕ → List α → List α → List α
  | 0, _, _, _ => []
  | fuel + 1, k, pref, others =>
    if pref.isEmpty && others.isEmpty then []
    else
      let taken := pref.take (choices k)
      let rest := pref.drop (choices k)
      match others with
      | [] => taken ++ interleave choices fuel (k + 1) rest []
      | o :: os => taken ++ o :: interleave choices fuel (k + 1) rest os

/-- `MusicRecommendationEngine.get_smart_shuffle_order`.  `shufPref` and
`shufOthers` stand for the two `random.shuffle` calls (each an arbitrary
reordering of its list), `choices` for the stream of `random.randint(2, 3)`
draws. -/
def get_smart_shuffle_order (mlog : ℚ → ℚ) (d : PrefData) (current_hour : ℕ)
    (shufPref shufOthers : List ScoredSong → List ScoredSong)
    (choices : ℕ → ℕ) (songs : List String) : List ScoredSong :=
  match songs with
  | [] => []
  | _ :: _ =>
    let scored_songs := songs.map (fun song =>
      let score_data := calculate_song_score mlog d current_hour song
      { name := song, score := score_data.score, data := score_data })
    let sorted := sortDescBy (fun s => s.score) scored_songs
    let mid := sorted.length / 2
    let preferred := shufPref (sorted.take (max 1 mid))
    let others := shufOthers (sorted.drop mid)
    interleave choices (preferred.length + others.length) 0 preferred others

/-! ## Recommendation generator (`get_download_recommendations`) -/

/-- The `type` tag of a recommendation. -/
inductive RecType
  | artist
  | genre
  | keywords
  | time
deriving DecidableEq

/-- One recommendation dict. -/
structure Recommendation where
  query : String
  reason : String
  confidence : ℚ
  rtype : RecType
deriving DecidableEq

/-- The fixed genre → canned-query table of `get_download_recommendations`. -/
def genre_queries : List (String × String) :=
  [("electronic", "best electronic dance music 2024"),
   ("hiphop", "top hip hop rap songs"),
   ("rock", "best rock songs playlist"),
   ("pop", "top pop hits 2024"),
   ("classical", "beautiful classical music pieces"),
   ("jazz", "best jazz songs relaxing"),
   ("ambient", "chill ambient music relax"),
   ("indian", "top bollywood hindi songs"),
   ("lofi", "lofi hip hop beats study"),
   ("acoustic", "acoustic covers popular songs")]

/-- `MusicRecommendationEngine.get_download_recommendations`. -/
def get_download_recommendations (d : PrefData) (current_hour : ℕ)
    (count : ℕ) : List Recommendation :=
  let top_keywords := (sortDescBy (fun p => p.2) d.keyword_scores).take 10
  let top_artists := (sortDescBy (fun p => p.2) d.artist_scores).take 5
  let top_genres := (sortDescBy (fun p => p.2) d.genre_hints).take 3
  let artistRecs := ((top_artists.take 3).filter (fun p => p.2 > 0.55)).map
    (fun p =>
      { query := p.1 ++ " popular songs",
        reason := "You seem to enjoy " ++ pyTitle p.1,
        confidence := p.2, rtype := RecType.artist })
  let genreRecs := (top_genres.filter (fun p => p.2 > 0.55)).map
    (fun p =>
      { query := (amGet genre_queries p.1).getD ("best " ++ p.1 ++ " music"),
        reason := "Based on your " ++ p.1 ++ " listening patterns",
        confidence := p.2, rtype := RecType.genre })
  let keywordRecs :=
    if top_keywords.length ≥ 2 then
      let strong := ((top_keywords.filter (fun p => p.2 > 0.6)).map (fun p => p.1)).take 3
      if strong.isEmpty then []
      else
        [{ query := String.intercalate " " (strong.take 2) ++ " songs",
           reason := "Based on your interest in " ++ String.intercalate ", " (strong.take 2),
           confidence := 0.7, rtype := RecType.keywords }]
    else []
  let timeRecs :=
    if 22 ≤ current_hour ∨ current_hour < 6 then
      [{ query := "calm relaxing night music",
         reason := "Perfect for late night listening",
         confidence := 0.6, rtype := RecType.time }]
    else if 6 ≤ current_hour ∧ current_hour < 10 then
      [{ query := "morning motivation music energetic",
         reason := "Great for starting your day",
         confidence := 0.6, rtype := RecType.time }]
    else []
  (sortDescBy (fun r => r.confidence)
    (artistRecs ++ genreRecs ++ keywordRecs ++ timeRecs)).take count

/-! ## Event sequences -/

/-- The arguments of one `record_play` call, together with the wall-clock
values read during it. -/
structure PlayEvent where
  hour : ℕ
  now : String
  name : String
  completed : Bool
  duration_played : ℚ
  total_duration : ℚ
  skipped : Bool

/-- Folding a sequence of `record_play` calls over the model. -/
def apply_events (evs : List PlayEvent) (d : PrefData) : PrefData :=
  evs.foldl
    (fun d e =>
      (record_play d e.hour e.now e.name e.completed e.duration_played
        e.total_duration e.skipped).2) d

/-! ## Invariant vocabulary -/

/-- All stored weights of one map lie in `[0, 1]`. -/
def Wok (m : List (String × ℚ)) : Prop := ∀ p ∈ m, 0 ≤ p.2 ∧ p.2 ≤ 1

/-- The clamp invariant of the three learned weight maps. -/
def WeightsOK (d : PrefData) : Prop :=
  Wok d.keyword_scores ∧ Wok d.artist_scores ∧ Wok d.genre_hints

/-- How a weight map entry may evolve across a skip event: an entry that
existed before persists and does not increase (staying nonnegative), an
entry created by the event sits strictly below the `0.5` seed, and no entry
disappears. -/
def Rrel (o o2 : Option ℚ) : Prop :=
  match o, o2 with
  | some v, some w => 0 ≤ w ∧ w ≤ v
  | some _, none => False
  | none, some w => 0 ≤ w ∧ w < 0.5
  | none, none => True

/-! ## Association-list lemmas -/

theorem amGet_amSet_self {α : Type} (m : List (String × α)) (k : String) (v : α) :
    amGet (amSet m k v) k = some v := by
  induction m with
  | nil => simp [amGet, amSet]
  | cons p rest ih =>
    obtain ⟨k0, v0⟩ := p
    by_cases h : k0 = k
    · simp [amGet, amSet, h]
    · simp [amGet, amSet, h, ih]

theorem amGet_amSet_other {α : Type} (m : List (String × α)) (k k2 : String)
    (v : α) (h : k2 ≠ k) : amGet (amSet m k v) k2 = amGet m k2 := by
  have hne : k ≠ k2 := fun hh => h hh.symm
  induction m with
  | nil =>
    simp only [amSet, amGet]
    rw [if_neg hne]
  | cons p rest ih =>
    obtain ⟨k0, v0⟩ := p
    by_cases h0 : k0 = k
    · subst h0
      simp only [amSet, if_pos rfl, amGet]
      rw [if_neg hne, if_neg hne]
    · simp only [amSet, if_neg h0, amGet]
      by_cases h2 : k0 = k2
      · rw [if_pos h2, if_pos h2]
      · rw [if_neg h2, if_neg h2, ih]

theorem mem_amSet {α : Type} {p : String × α} {m : List (String × α)}
    {k : String} {v : α} (h : p ∈ amSet m k v) : p.2 = v ∨ p ∈ m := by
  induction m with
  | nil =>
    simp [amSet] at h
    subst h
    left
    rfl
  | cons q rest ih =>
    obtain ⟨k0, v0⟩ := q
    by_cases h0 : k0 = k
    · simp [amSet, h0] at h
      rcases h with h | h
      · left
        rw [h]
      · right
        exact List.mem_cons_of_mem _ h
    · simp [amSet, h0] at h
      rcases h with h | h
      · right
        simp [h]
      · rcases ih h with h2 | h2
        · left
          exact h2
        · right
          exact List.mem_cons_of_mem _ h2

theorem amGet_nonneg {m : List (String × ℚ)} (h : ∀ p ∈ m, 0 ≤ p.2)
    {k : String} {v : ℚ} (hv : amGet m k = some v) : 0 ≤ v := by
  induction m with
  | nil => simp [amGet] at hv
  | cons q rest ih =>
    obtain ⟨k0, v0⟩ := q
    by_cases h0 : k0 = k
    · simp [amGet, h0] at hv
      subst hv
      exact h (k0, v0) (List.mem_cons_self _ _)
    · simp [amGet, h0] at hv
      exact ih (fun p hp => h p (List.mem_cons_of_mem _ hp)) hv

/-! ## The clamp invariant (claim C2) -/

theorem Wok_amSet {m : List (String × ℚ)} {k : String} {v : ℚ}
    (h : Wok m) (h0 : 0 ≤ v) (h1 : v ≤ 1) : Wok (amSet m k v) := by
  intro p hp
  rcases mem_amSet hp with h2 | h2
  · rw [h2]
    exact ⟨h0, h1⟩
  · exact h p h2

theorem Wok_clamp_update {m : List (String × ℚ)} (lr r b : ℚ) (k : String)
    (h : Wok m) : Wok (_clamp_update lr r b m k) := by
  unfold _clamp_update
  refine Wok_amSet h (le_max_left _ _) ?_
  have : min 1 ((amGet m k).getD 0.5 + lr * (r - b)) ≤ 1 := min_le_left _ _
  exact max_le (by norm_num) this

theorem Wok_foldl_clamp (lr r b : ℚ) (ks : List String)
    {m : List (String × ℚ)} (h : Wok m) :
    Wok (ks.foldl (fun acc k => _clamp_update lr r b acc k) m) := by
  induction ks generalizing m with
  | nil => exact h
  | cons k tl ih => exact ih (Wok_clamp_update lr r b k h)

theorem record_play_preserves_WeightsOK (d : PrefData) (hour : ℕ) (now : String)
    (name : String) (c : Bool) (dp td : ℚ) (sk : Bool) (h : WeightsOK d) :
    WeightsOK (record_play d hour now name c dp td sk).2 := by
  obtain ⟨h1, h2, h3⟩ := h
  refine ⟨?_, ?_, ?_⟩
  · simp only [record_play]
    exact Wok_foldl_clamp _ _ _ _ h1
  · simp only [record_play]
    cases hA : (_extract_features name).artist with
    | none => simpa [hA] using h2
    | some a =>
      by_cases he : a = ""
      · simpa [hA, he] using h2
      · simpa [hA, he] using Wok_clamp_update _ _ _ _ h2
  · simp only [record_play]
    exact Wok_foldl_clamp _ _ _ _ h3

/-- Claim C2: across any sequence of `record_play` calls with arbitrary
inputs, every weight stored in the keyword, artist and genre maps remains in
`[0, 1]`: the invariant `WeightsOK` is preserved by the whole sequence (and
so holds after every intermediate call, each prefix being such a sequence). -/
theorem record_play_sequences_keep_weights_clamped
    (evs : List PlayEvent) (d : PrefData) (h : WeightsOK d) :
    WeightsOK (apply_events evs d) := by
  induction evs generalizing d with
  | nil => exact h
  | cons e tl ih =>
    exact ih _ (record_play_preserves_WeightsOK _ _ _ _ _ _ _ _ h)

/-- Witness for C2: the fresh model satisfies the invariant, and it still
holds after a concrete recorded play. -/
theorem record_play_sequences_keep_weights_clamped_witness :
    WeightsOK defaultPrefData ∧
    WeightsOK (apply_events
      [{ hour := 14, now := "t0", name := "DJ Nova - Night Drive",
         completed := true, duration_played := 180, total_duration := 180,
         skipped := false }] defaultPrefData) := by
  have h0 : WeightsOK defaultPrefData := by
    refine ⟨?_, ?_, ?_⟩ <;> intro p hp <;> simp [defaultPrefData] at hp
  exact ⟨h0, record_play_sequences_keep_weights_clamped _ _ h0⟩

/-! ## Skip events (claims C6 and C10) -/

/-- Claim C6: a skip event returns reward `-0.3`, bumps the global skip
counter and the track's `skip_count` by exactly one, and leaves the track's
`total_completion` at its previous value (`0` for a track seen for the first
time, matching the freshly created stats entry). -/
theorem record_play_skip_effects (d : PrefData) (hour : ℕ) (now name : String)
    (c : Bool) (dp td : ℚ) :
    (record_play d hour now name c dp td true).1.reward = -0.3 ∧
    (record_play d hour now name c dp td true).2.total_skips = d.total_skips + 1 ∧
    (amGet (record_play d hour now name c dp td true).2.song_stats name).map
        (fun s => s.skip_count)
      = some ((((amGet d.song_stats name).map (fun s => s.skip_count)).getD 0) + 1) ∧
    (amGet (record_play d hour now name c dp td true).2.song_stats name).map
        (fun s => s.total_completion)
      = some (((amGet d.song_stats name).map (fun s => s.total_completion)).getD 0) := by
  refine ⟨?_, ?_, ?_, ?_⟩
  · simp [record_play]
  · simp [record_play]
  · simp only [record_play, amGet_amSet_self]
    cases hs : amGet d.song_stats name <;> simp [hs]
  · simp only [record_play, amGet_amSet_self]
    cases hs : amGet d.song_stats name <;> simp [hs]

theorem Rrel_refl_of_nonneg {m : List (String × ℚ)} (h : ∀ p ∈ m, 0 ≤ p.2)
    (k : String) : Rrel (amGet m k) (amGet m k) := by
  cases hm : amGet m k with
  | none => trivial
  | some v => exact ⟨amGet_nonneg h hm, le_refl v⟩

theorem Rrel_clamp_update (lr r b : ℚ) (hneg : lr * (r - b) < 0)
    (orig m : List (String × ℚ)) (k0 : String)
    (h : ∀ k, Rrel (amGet orig k) (amGet m k)) :
    ∀ k, Rrel (amGet orig k) (amGet (_clamp_update lr r b m k0) k) := by
  intro k
  by_cases hk : k = k0
  · subst hk
    unfold _clamp_update
    rw [amGet_amSet_self]
    have hh := h k
    cases hm : amGet m k with
    | none =>
      rw [hm] at hh
      cases ho : amGet orig k with
      | none =>
        rw [ho] at hh
        simp only [Option.getD_none]
        refine ⟨le_max_left _ _, ?_⟩
        apply max_lt (by norm_num)
        calc min 1 ((0.5 : ℚ) + lr * (r - b)) ≤ 0.5 + lr * (r - b) := min_le_right _ _
          _ < 0.5 := by linarith
      | some v =>
        rw [ho] at hh
        exact hh.elim
    | some w =>
      rw [hm] at hh
      simp only [Option.getD_some]
      cases ho : amGet orig k with
      | none =>
        rw [ho] at hh
        obtain ⟨hw0, hwlt⟩ := hh
        refine ⟨le_max_left _ _, ?_⟩
        apply max_lt (by norm_num)
        calc min 1 (w + lr * (r - b)) ≤ w + lr * (r - b) := min_le_right _ _
          _ < w := by linarith
          _ < 0.5 := hwlt
      | some v =>
        rw [ho] at hh
        obtain ⟨hw0, hwle⟩ := hh
        refine ⟨le_max_left _ _, ?_⟩
        refine max_le (le_trans hw0 hwle) ?_
        calc min 1 (w + lr * (r - b)) ≤ w + lr * (r - b) := min_le_right _ _
          _ ≤ w := by linarith
          _ ≤ v := hwle
  · unfold _clamp_update
    rw [amGet_amSet_other _ _ _ _ hk]
    exact h k

theorem Rrel_foldl_clamp (lr r b : ℚ) (hneg : lr * (r - b) < 0)
    (orig : List (String × ℚ)) (ks : List String) :
    ∀ m, (∀ k, Rrel (amGet orig k) (amGet m k)) →
      ∀ k, Rrel (amGet orig k)
        (amGet (ks.foldl (fun acc k2 => _clamp_update lr r b acc k2) m) k) := by
  induction ks with
  | nil => exact fun m h k => h k
  | cons k1 tl ih =>
    exact fun m h k => ih _ (Rrel_clamp_update lr r b hneg orig m k1 h) k

/-- Claim C10: a skip event (reward `-0.3`) never raises any keyword, artist
or genre weight — with the model's learning rate at its fixed `0.1` and all
stored weights nonnegative, every entry present before the call ends at most
at its previous value, and every entry the call creates ends strictly below
the `0.5` seed (`Rrel` states exactly this evolution per key). -/
theorem record_play_skip_monotone (d : PrefData) (hour : ℕ) (now name : String)
    (c : Bool) (dp td : ℚ) (hlr : d.learning_rate = 0.1)
    (hkw : ∀ p ∈ d.keyword_scores, 0 ≤ p.2)
    (har : ∀ p ∈ d.artist_scores, 0 ≤ p.2)
    (hg : ∀ p ∈ d.genre_hints, 0 ≤ p.2) :
    (∀ k, Rrel (amGet d.keyword_scores k)
      (amGet (record_play d hour now name c dp td true).2.keyword_scores k)) ∧
    (∀ k, Rrel (amGet d.artist_scores k)
      (amGet (record_play d hour now name c dp td true).2.artist_scores k)) ∧
    (∀ k, Rrel (amGet d.genre_hints k)
      (amGet (record_play d hour now name c dp td true).2.genre_hints k)) := by
  refine ⟨?_, ?_, ?_⟩
  · simp only [record_play, if_true]
    rw [hlr]
    exact Rrel_foldl_clamp 0.1 (-0.3) 0.5 (by norm_num) _ _ _
      (Rrel_refl_of_nonneg hkw)
  · simp only [record_play, if_true]
    rw [hlr]
    cases hA : (_extract_features name).artist with
    | none => exact Rrel_refl_of_nonneg har
    | some a =>
      by_cases he : a = ""
      · simp only [he, if_pos rfl]
        exact Rrel_refl_of_nonneg har
      · simp only [if_neg he]
        exact Rrel_clamp_update 0.1 (-0.3) 0.3 (by norm_num) _ _ _
          (Rrel_refl_of_nonneg har)
  · simp only [record_play, if_true]
    rw [hlr]
    exact Rrel_foldl_clamp 0.1 (-0.3) 0.5 (by norm_num) _ _ _
      (Rrel_refl_of_nonneg hg)

/-- Witness for C10 at a concrete model and skip event. -/
theorem record_play_skip_monotone_witness :
    ({ defaultPrefData with
        keyword_scores := [("night", 0.5)] } : PrefData).learning_rate = 0.1 ∧
    (∀ p ∈ ({ defaultPrefData with
        keyword_scores := [("night", 0.5)] } : PrefData).keyword_scores, 0 ≤ p.2) ∧
    ((∀ k, Rrel
        (amGet ({ defaultPrefData with
          keyword_scores := [("night", 0.5)] } : PrefData).keyword_scores k)
        (amGet (record_play { defaultPrefData with keyword_scores := [("night", 0.5)] }
          23 "t1" "Night Drive" false 0 0 true).2.keyword_scores k)) ∧
      (∀ k, Rrel
        (amGet ({ defaultPrefData with
          keyword_scores := [("night", 0.5)] } : PrefData).artist_scores k)
        (amGet (record_play { defaultPrefData with keyword_scores := [("night", 0.5)] }
          23 "t1" "Night Drive" false 0 0 true).2.artist_scores k)) ∧
      (∀ k, Rrel
        (amGet ({ defaultPrefData with
          keyword_scores := [("night", 0.5)] } : PrefData).genre_hints k)
        (amGet (record_play { defaultPrefData with keyword_scores := [("night", 0.5)] }
          23 "t1" "Night Drive" false 0 0 true).2.genre_hints k))) := by
  refine ⟨rfl, ?_, ?_⟩
  · intro p hp
    simp only [List.mem_singleton] at hp
    rw [hp]
    norm_num
  · exact record_play_skip_monotone _ 23 "t1" "Night Drive" false 0 0 rfl
      (by intro p hp
          simp only [List.mem_singleton] at hp
          rw [hp]
          norm_num)
      (by intro p hp
          simp [defaultPrefData] at hp)
      (by intro p hp
          simp [defaultPrefData] at hp)

/-! ## The worked example on a fresh model (claim C5) -/

/-- Claim C5: on a fresh model, recording a completed full play of
"DJ Nova - Night Drive" yields reward 1 (completion 1), a stats entry with
one play and cumulative completion 1, keyword weights 0.55 for "night" and
"drive", and artist weight 0.57 for "dj nova". -/
theorem record_play_fresh_example :
    (record_play defaultPrefData 14 "t0" "DJ Nova - Night Drive"
        true 180 180 false).1.reward = 1 ∧
    (amGet (record_play defaultPrefData 14 "t0" "DJ Nova - Night Drive"
          true 180 180 false).2.song_stats "DJ Nova - Night Drive").map
        (fun s => s.play_count) = some 1 ∧
    (amGet (record_play defaultPrefData 14 "t0" "DJ Nova - Night Drive"
          true 180 180 false).2.song_stats "DJ Nova - Night Drive").map
        (fun s => s.total_completion) = some 1 ∧
    amGet (record_play defaultPrefData 14 "t0" "DJ Nova - Night Drive"
        true 180 180 false).2.keyword_scores "night" = some 0.55 ∧
    amGet (record_play defaultPrefData 14 "t0" "DJ Nova - Night Drive"
        true 180 180 false).2.keyword_scores "drive" = some 0.55 ∧
    amGet (record_play defaultPrefData 14 "t0" "DJ Nova - Night Drive"
        true 180 180 false).2.artist_scores "dj nova" = some 0.57 := by
  have hf : _extract_features "DJ Nova - Night Drive" =
      { keywords := ["night", "drive"], artist := some "DJ Nova",
        potential_genre := [], mood_hints := [], language_hints := [] } := by decide
  have ha : strLower "DJ Nova" = "dj nova" := by decide
  refine ⟨?_, ?_, ?_, ?_, ?_, ?_⟩ <;>
    simp only [record_play, hf, ha, defaultPrefData] <;>
    simp [amGet, amSet, _clamp_update, completionOf, min_def, max_def] <;>
    norm_num

/-! ## Purity of scoring (claim C7) -/

/-- Claim C7: `calculate_song_score` mutates nothing — in the state-passing
embedding the model coming out of a scoring call is the model that went in,
and a second call on that state returns the identical result. -/
theorem score_op_pure (mlog : ℚ → ℚ) (d : PrefData) (hour : ℕ) (name : String) :
    (score_op mlog d hour name).2 = d ∧
    (score_op mlog (score_op mlog d hour name).2 hour name).1
      = (score_op mlog d hour name).1 :=
  ⟨rfl, rfl⟩

/-! ## Loading with defaults (claim C9) -/

/-- Claim C9: a read or parse failure yields the default empty shape (empty
maps and zero counters, learning rate 0.1), and a loaded document has every
missing top-level field filled from that default while present fields are
kept. -/
theorem load_preferences_defaults :
    _load_preferences none = defaultPrefData ∧
    defaultPrefData.song_stats = [] ∧
    defaultPrefData.keyword_scores = [] ∧
    defaultPrefData.artist_scores = [] ∧
    defaultPrefData.genre_hints = [] ∧
    (∀ h, defaultPrefData.time_preferences h = []) ∧
    defaultPrefData.total_plays = 0 ∧
    defaultPrefData.total_skips = 0 ∧
    defaultPrefData.learning_rate = 0.1 ∧
    ∀ doc : LoadedDoc,
      (_load_preferences (some doc)).song_stats
          = doc.song_stats.getD defaultPrefData.song_stats ∧
      (_load_preferences (some doc)).keyword_scores
          = doc.keyword_scores.getD defaultPrefData.keyword_scores ∧
      (_load_preferences (some doc)).artist_scores
          = doc.artist_scores.getD defaultPrefData.artist_scores ∧
      (_load_preferences (some doc)).time_preferences
          = doc.time_preferences.getD defaultPrefData.time_preferences ∧
      (_load_preferences (some doc)).genre_hints
          = doc.genre_hints.getD defaultPrefData.genre_hints ∧
      (_load_preferences (some doc)).total_plays
          = doc.total_plays.getD defaultPrefData.total_plays ∧
      (_load_preferences (some doc)).total_skips
          = doc.total_skips.getD defaultPrefData.total_skips ∧
      (_load_preferences (some doc)).learning_rate
          = doc.learning_rate.getD defaultPrefData.learning_rate ∧
      (_load_preferences (some doc)).last_updated
          = doc.last_updated.getD defaultPrefData.last_updated :=
  ⟨rfl, rfl, rfl, rfl, rfl, fun _ => rfl, rfl, rfl, rfl,
    fun _ => ⟨rfl, rfl, rfl, rfl, rfl, rfl, rfl, rfl, rfl⟩⟩

/-! ## The shuffle planner on a one-element input (claim C1) -/

/-- Claim C1 fails on the code: with a single input track, the split takes
`preferred = sorted[:max(1, 0)]` and `others = sorted[0:]`, which both hold
the sole track, so the plan lists it twice — the output is not a permutation
of the input.  On a one-element list both `random.shuffle` calls are the
identity and the `randint(2, 3)` draws are irrelevant (shown here with draws
of 2), so this is the behaviour for every possible random outcome. -/
theorem shuffle_singleton_duplicated :
    (get_smart_shuffle_order (fun _ => 0) defaultPrefData 12 id id (fun _ => 2)
      ["song a"]).map (fun s => s.name) = ["song a", "song a"] := by
  simp [get_smart_shuffle_order, sortDescBy, insertDescBy, interleave]

/-! ## The genre factor (claim C3) -/

theorem genre_fold_aux (hints : List (String × ℚ)) (tags : List String) (s : ℚ) :
    tags.foldl (fun s2 g => match amGet hints g with | some v => s2 + v | none => s2) s
      = s + genre_sum_spec hints tags := by
  induction tags generalizing s with
  | nil => simp [genre_sum_spec]
  | cons g tl ih =>
    simp only [List.foldl_cons, genre_sum_spec, List.map_cons, List.sum_cons]
    cases h : amGet hints g with
    | none =>
      simp only [ih]
      simp [genre_sum_spec]
    | some v =>
      simp only [ih]
      simp only [genre_sum_spec, Option.getD_some]
      ring

theorem genre_fold_eq_spec (hints : List (String × ℚ)) (tags : List String) :
    genre_fold hints tags = genre_sum_spec hints tags := by
  have h := genre_fold_aux hints tags 0
  simpa [genre_fold] using h

/-- Claim C3 fails on the code: scoring "rock song" against the fresh model
(no genre weight known for its sole tag "rock") yields 0.4 — the genre
factor fires with an average of 0, dividing the sum of known weights by the
total number of tags — whereas the claim (average over known weights only,
factor skipped when none is known) predicts the base score 0.5, as the
claim-faithful variant of the scorer shows. -/
theorem genre_factor_counterexample :
    (calculate_song_score (fun _ => 0) defaultPrefData 12 "rock song").score = 0.4 ∧
    (calculate_song_score_claimC3 (fun _ => 0) defaultPrefData 12 "rock song").score = 0.5 ∧
    (0.4 : ℚ) ≠ 0.5 := by
  have hf : _extract_features "rock song" =
      { keywords := ["rock", "song"], artist := none,
        potential_genre := ["rock"], mood_hints := [], language_hints := [] } := by decide
  refine ⟨?_, ?_, by norm_num⟩
  · simp only [calculate_song_score, hf, defaultPrefData]
    simp [amGet, genre_fold, min_def, max_def]
    norm_num
  · simp only [calculate_song_score_claimC3, hf, defaultPrefData]
    simp [amGet, min_def, max_def]
    norm_num

/-- Claim C3 amended: the genre factor is applied whenever the track has at
least one genre tag; its average is the sum of the tags' learned weights,
an unknown tag contributing 0, divided by the total number of tags; it
contributes `(avg − 0.5) × 0.2`.  The scorer equals the variant written in
exactly those terms. -/
theorem calculate_song_score_genre_amended (mlog : ℚ → ℚ) (d : PrefData)
    (hour : ℕ) (name : String) :
    calculate_song_score mlog d hour name
      = calculate_song_score_amendedC3 mlog d hour name := by
  have h : genre_fold = genre_sum_spec := by
    funext hints tags
    exact genre_fold_eq_spec hints tags
  unfold calculate_song_score calculate_song_score_amendedC3
  rw [h]

/-! ## The " by " branch of feature extraction (claim C4) -/

theorem splitFirst_some_of_contains (pat : List Char) (hne : pat ≠ []) :
    ∀ s, strContains pat s = true → ∃ pr, splitFirst pat s = some pr := by
  intro s
  induction s with
  | nil =>
    intro h
    rw [strContains, List.isEmpty_iff] at h
    exact absurd h hne
  | cons c rest ih =>
    intro h
    rw [strContains, Bool.or_eq_true] at h
    by_cases hp : pat.isPrefixOf (c :: rest) = true
    · exact ⟨_, by rw [splitFirst, if_pos hp]⟩
    · rcases h with h | h
      · exact absurd h hp
      · obtain ⟨pr, hpr⟩ := ih h
        refine ⟨(c :: pr.1, pr.2), ?_⟩
        rw [splitFirst, if_neg hp, hpr]

/-- Claim C4 fails on the code: for "Sunrise by Alice" (no `" - "`, but
`" by "` in the lowered name) the artist is the right segment "alice", yet
the keyword tokens are ["sunrise", "alice"] — "sunrise" is drawn from the
left segment, which the claim says undergoes no keyword extraction. -/
theorem by_branch_keywords_counterexample :
    (_extract_features "Sunrise by Alice").artist = some "alice" ∧
    (_extract_features "Sunrise by Alice").keywords = ["sunrise", "alice"] ∧
    "sunrise" ∈ (_extract_features "Sunrise by Alice").keywords := by
  decide

/-- Claim C4 amended: in the `" by "` branch the candidate artist is the
trimmed right segment of the first split, and the keyword tokens are
extracted from the ENTIRE lower-cased name — left segment included (the
`" - "` branch is the only one that restricts keyword extraction to the
right segment). -/
theorem extract_features_by_branch (name : String)
    (h1 : strContains (" - ".toList) (splitextRoot name.toList) = false)
    (h2 : strContains (" by ".toList) (pyLower (splitextRoot name.toList)) = true) :
    (_extract_features name).artist
      = (splitFirst (" by ".toList) (pyLower (splitextRoot name.toList))).map
          (fun pr => String.mk (pyStrip pr.2)) ∧
    (_extract_features name).keywords
      = ((tokenize sepChar (pyLower (splitextRoot name.toList))).filter
          (fun w => (pyStrip w).length ≥ 3)).map (fun w => String.mk (pyStrip w)) := by
  obtain ⟨⟨pre, post⟩, hsp⟩ :=
    splitFirst_some_of_contains (" by ".toList) (by decide) _ h2
  unfold _extract_features
  simp only [h1, h2, hsp, Bool.false_eq_true, if_false, if_true, Option.map_some]
  constructor <;> trivial

/-- Witness for C4 (amended) at "Sunrise by Alice". -/
theorem extract_features_by_branch_witness :
    strContains (" - ".toList) (splitextRoot "Sunrise by Alice".toList) = false ∧
    strContains (" by ".toList) (pyLower (splitextRoot "Sunrise by Alice".toList)) = true ∧
    ((_extract_features "Sunrise by Alice").artist
        = (splitFirst (" by ".toList) (pyLower (splitextRoot "Sunrise by Alice".toList))).map
            (fun pr => String.mk (pyStrip pr.2)) ∧
      (_extract_features "Sunrise by Alice").keywords
        = ((tokenize sepChar (pyLower (splitextRoot "Sunrise by Alice".toList))).filter
            (fun w => (pyStrip w).length ≥ 3)).map (fun w => String.mk (pyStrip w))) :=
  ⟨by decide, by decide,
    extract_features_by_branch "Sunrise by Alice" (by decide) (by decide)⟩

/-! ## Recommendation generation (claim C8) -/

theorem mem_insertDescBy {α : Type} (key : α → ℚ) (x z : α) (l : List α) :
    z ∈ insertDescBy key x l ↔ z = x ∨ z ∈ l := by
  induction l with
  | nil => simp [insertDescBy]
  | cons y ys ih =>
    by_cases h : key x < key y
    · rw [insertDescBy, if_pos h]
      simp only [List.mem_cons, ih]
      tauto
    · rw [insertDescBy, if_neg h]
      simp only [List.mem_cons]

theorem mem_sortDescBy {α : Type} (key : α → ℚ) (z : α) (l : List α) :
    z ∈ sortDescBy key l ↔ z ∈ l := by
  induction l with
  | nil => simp [sortDescBy]
  | cons x xs ih =>
    rw [sortDescBy, mem_insertDescBy]
    simp [ih]

theorem insertDescBy_front {α : Type} (key : α → ℚ) (x : α) (l : List α)
    (h : ∀ z ∈ l, key z < key x) : insertDescBy key x l = x :: l := by
  cases l with
  | nil => rfl
  | cons y ys =>
    rw [insertDescBy, if_neg (not_lt.mpr (le_of_lt (h y (List.mem_cons_self _ _))))]

theorem sortDescBy_front {α : Type} (key : α → ℚ) (x : α) (a b : List α)
    (h : ∀ z ∈ a ++ b, key z < key x) :
    sortDescBy key (a ++ x :: b) = x :: sortDescBy key (a ++ b) := by
  induction a with
  | nil =>
    simp only [List.nil_append, sortDescBy]
    refine insertDescBy_front key x _ (fun z hz => h z ?_)
    simpa using (mem_sortDescBy key z b).mp hz
  | cons c a2 ih =>
    simp only [List.cons_append, sortDescBy, List.append_eq]
    rw [ih (fun z hz => h z (by simp only [List.cons_append, List.mem_cons]; right; exact hz))]
    rw [insertDescBy, if_pos (h c (by simp))]

theorem filter_none {α : Type} (p : α → Bool) (l : List α)
    (h : ∀ z ∈ l, p z = false) : l.filter p = [] := by
  induction l with
  | nil => rfl
  | cons x xs ih =>
    rw [List.filter_cons_of_neg (by simp [h x (List.mem_cons_self _ _)]),
      ih (fun z hz => h z (List.mem_cons_of_mem _ hz))]

/-- Claim C8: on any model whose artist map holds "dj nova" at weight 0.8
with every other artist, keyword and genre weight at most 0.55, `suggest(5)`
emits exactly one artist-type suggestion — query "dj nova popular songs" at
confidence 0.8 — and that suggestion heads the returned list (which is
sorted by descending confidence and truncated to the requested count). -/
theorem suggest_dj_nova (hour : ℕ) (d : PrefData) (a b : List (String × ℚ))
    (hart : d.artist_scores = a ++ ("dj nova", 0.8) :: b)
    (hab : ∀ p ∈ a ++ b, p.2 ≤ 0.55)
    (hkw : ∀ p ∈ d.keyword_scores, p.2 ≤ 0.55)
    (hg : ∀ p ∈ d.genre_hints, p.2 ≤ 0.55) :
    (get_download_recommendations d hour 5).filter
        (fun r => r.rtype == RecType.artist)
      = [{ query := "dj nova popular songs",
           reason := "You seem to enjoy Dj Nova",
           confidence := 0.8, rtype := RecType.artist }] ∧
    (get_download_recommendations d hour 5).head?
      = some { query := "dj nova popular songs",
               reason := "You seem to enjoy Dj Nova",
               confidence := 0.8, rtype := RecType.artist } := by
  have htitle : "You seem to enjoy " ++ pyTitle "dj nova" = "You seem to enjoy Dj Nova" := by
    decide
  have hb1 : (RecType.time == RecType.artist) = false := by decide
  have hb2 : (RecType.artist == RecType.artist) = true := by decide
  have happ : "dj nova" ++ " popular songs" = "dj nova popular songs" := by decide
  have hsortA : sortDescBy (fun p : String × ℚ => p.2) d.artist_scores
      = ("dj nova", 0.8) :: sortDescBy (fun p : String × ℚ => p.2) (a ++ b) := by
    rw [hart]
    exact sortDescBy_front _ _ a b (fun z hz => lt_of_le_of_lt (hab z hz) (by norm_num))
  have hfiltA : (((sortDescBy (fun p : String × ℚ => p.2) d.artist_scores).take 5).take 3).filter
      (fun p => p.2 > 0.55) = [("dj nova", 0.8)] := by
    rw [hsortA, List.take_succ_cons, List.take_succ_cons,
      List.filter_cons_of_pos (by norm_num)]
    rw [filter_none _ _ (fun z hz => ?_)]
    have hz2 : z ∈ sortDescBy (fun p : String × ℚ => p.2) (a ++ b) :=
      List.take_subset _ _ (List.take_subset _ _ hz)
    have : z.2 ≤ 0.55 := hab z ((mem_sortDescBy _ _ _).mp hz2)
    simpa using not_lt.mpr this
  have hfiltG : ((sortDescBy (fun p : String × ℚ => p.2) d.genre_hints).take 3).filter
      (fun p => p.2 > 0.55) = [] := by
    refine filter_none _ _ (fun z hz => ?_)
    have : z.2 ≤ 0.55 :=
      hg z ((mem_sortDescBy _ _ _).mp (List.take_subset _ _ hz))
    simpa using not_lt.mpr this
  have hfiltK : ((sortDescBy (fun p : String × ℚ => p.2) d.keyword_scores).take 10).filter
      (fun p => p.2 > 0.6) = [] := by
    refine filter_none _ _ (fun z hz => ?_)
    have h2 : z.2 ≤ 0.55 :=
      hkw z ((mem_sortDescBy _ _ _).mp (List.take_subset _ _ hz))
    have : ¬ (z.2 > 0.6) := not_lt.mpr (le_trans h2 (by norm_num))
    simpa using this
  simp only [get_download_recommendations, hfiltA, hfiltG, hfiltK,
    List.map_cons, List.map_nil, List.take_nil, List.isEmpty_nil, if_true,
    ite_self, List.nil_append, List.append_nil, htitle, happ]
  by_cases ht : 22 ≤ hour ∨ hour < 6
  · rw [if_pos ht]
    simp only [List.singleton_append, sortDescBy, insertDescBy]
    rw [if_neg (by norm_num)]
    constructor
    · simp [List.filter, hb1, hb2]
    · rfl
  · rw [if_neg ht]
    by_cases ht2 : 6 ≤ hour ∧ hour < 10
    · rw [if_pos ht2]
      simp only [List.singleton_append, sortDescBy, insertDescBy]
      rw [if_neg (by norm_num)]
      constructor
      · simp [List.filter, hb1, hb2]
      · rfl
    · rw [if_neg ht2]
      simp only [List.append_nil, sortDescBy, insertDescBy]
      constructor
      · simp [List.filter, hb1, hb2]
      · rfl

/-- Witness for C8 at a concrete model (hour 12, one rival artist at 0.5,
one keyword at 0.55, no genre weights). -/
theorem suggest_dj_nova_witness :
    (∀ p ∈ ([] : List (String × ℚ)) ++ [("bob", (0.5 : ℚ))], p.2 ≤ 0.55) ∧
    ((get_download_recommendations { defaultPrefData with
          artist_scores := [("dj nova", 0.8), ("bob", 0.5)],
          keyword_scores := [("night", 0.55)] } 12 5).filter
        (fun r => r.rtype == RecType.artist)
      = [{ query := "dj nova popular songs",
           reason := "You seem to enjoy Dj Nova",
           confidence := 0.8, rtype := RecType.artist }] ∧
     (get_download_recommendations { defaultPrefData with
          artist_scores := [("dj nova", 0.8), ("bob", 0.5)],
          keyword_scores := [("night", 0.55)] } 12 5).head?
      = some { query := "dj nova popular songs",
               reason := "You seem to enjoy Dj Nova",
               confidence := 0.8, rtype := RecType.artist }) := by
  constructor
  · intro p hp
    simp only [List.nil_append, List.mem_singleton] at hp
    rw [hp]
    norm_num
  · exact suggest_dj_nova 12 _ [] [("bob", 0.5)] rfl
      (by intro p hp
          simp only [List.nil_append, List.mem_singleton] at hp
          rw [hp]
          norm_num)
      (by intro p hp
          simp only [List.mem_singleton] at hp
          rw [hp])
      (by intro p hp
          simp [defaultPrefData] at hp)
